import Mathlib

/-!
Verification of the MUES C extensions (ext/object.c, ext/polymorphic.c,
ext/blank.c) against their natural-language specification.

The C code is shallowly embedded:
* a Ruby `VALUE` is either an immediate (unboxed) value or a handle into a
  heap of object records (`RValue`, `Heap`);
* an object record models the five words of an `RVALUE` that
  `mues_polymorphic_polymorph` exchanges with `memcpy`: the taint bit of the
  `flags` word, the class word (reduced to the one class fact the code
  consults, membership in `MUES::PolymorphicObject`), and the remaining
  payload words;
* raising a Ruby exception is modelled with `Except`; functions that can
  raise after possibly mutating state return the state next to the
  `Except` result, so that "no mutation on failure" is expressible.
-/

namespace Mues

/-- Errors raised by the C extensions, one constructor per distinct raise
site / spec error name. -/
inductive MuesError where
  /-- `rb_eSecurityError`, "can't polymorph into an (un)tainted object"
  (spec: `SecurityError::CrossTaintExchange`). -/
  | crossTaintExchange
  /-- `rb_eSecurityError`, "cannot polymorph a tainted object"
  (spec: `SecurityError::TaintedExchangeForbidden`). -/
  | taintedExchangeForbidden
  /-- `rb_eSecurityError` raised by `rb_secure(3)`
  (spec: `SecurityError::InsufficientPrivilege`). -/
  | insufficientPrivilege
  /-- `rb_eScriptError`, "Cannot declare abstract methods for a concrete
  class" (spec: `ContractError::NotAbstractDeclaring`). -/
  | notAbstractDeclaring
  /-- `mues_eVirtualMethodError`, "Unimplemented virtual method"
  (spec: `ContractError::VirtualMethodError`). -/
  | virtualMethodError
  /-- `mues_eVirtualMethodError`, "Insufficient arity for overridden
  method" (spec: `ContractError::InsufficientArity`); carries the method
  name and the target and normalized actual arities the code computed. -/
  | insufficientArity (name : String) (required actual : Int)
  /-- `NameError` raised by `instance_method` when the looked-up method
  does not exist on the receiver. -/
  | nameError
  /-- `rb_eTypeError`, "Cannot polymorph a non-polymorphic object"
  (spec: `ExchangeError::NotExchangeable`). -/
  | notExchangeable
  /-- `rb_eTypeError`, "%s is not boxed" (spec: `ExchangeError::NotBoxed`). -/
  | notBoxed
  deriving DecidableEq, Repr

/-- The object record behind a boxed `VALUE`: the part of the `RVALUE`
that the `memcpy` calls in `mues_polymorphic_polymorph` exchange.
`taint` is the `FL_TAINT` bit of the flags word, `polymorphic` is the
class-word fact consulted by `rb_obj_is_kind_of(_, mues_cMuesPolymorphicObject)`,
`payload` stands for the remaining data words. -/
structure Record where
  taint : Bool
  polymorphic : Bool
  payload : Int
  deriving DecidableEq, Repr

/-- The heap: object records addressed by handles. -/
def Heap : Type := Nat → Record

/-- A Ruby `VALUE`: an immediate (unboxed, `IMMEDIATE_P`) value or a
handle to a heap record. -/
inductive RValue where
  | immediate (v : Int)
  | boxed (h : Nat)
  deriving DecidableEq, Repr

/-- `OBJ_TAINTED`: immediates are never tainted, boxed values read the
flag of their record. -/
def rValueTainted (heap : Heap) : RValue → Bool
  | .immediate _ => false
  | .boxed h => (heap h).taint

/-- `rb_obj_is_kind_of(v, mues_cMuesPolymorphicObject)`: immediates are
never polymorphic objects, boxed values read their class word. -/
def rValueKindOfPolymorphic (heap : Heap) : RValue → Bool
  | .immediate _ => false
  | .boxed h => (heap h).polymorphic

/-- `IMMEDIATE_P`. -/
def rValueImmediate : RValue → Bool
  | .immediate _ => true
  | .boxed _ => false

/-- Exchange the records addressed by `ha` and `hb` (the three `memcpy`
calls of `mues_polymorphic_polymorph`); every other record is untouched. -/
def swapRecords (ha hb : Nat) (heap : Heap) : Heap :=
  fun x => if x = ha then heap hb else if x = hb then heap ha else heap x

/-- The record exchange performed in the success branch: defined on the
whole `RValue` type, but only reached when both values are boxed. -/
def recSwap (heap : Heap) : RValue → RValue → Heap
  | .boxed ha, .boxed hb => swapRecords ha hb heap
  | _, _ => heap

/-- Shallow embedding of `mues_polymorphic_polymorph` (polymorphic.c,
lines 39-77). `safe` is `rb_safe_level()`. Checks appear in source
order: the `$SAFE >= 1` taint block (with its nested `$SAFE >= 4`
check), the kind-of check on `other`, the two `IMMEDIATE_P` checks,
then the three `memcpy` calls and `return self`. Each raise returns
the untouched heap next to the error. -/
def mues_polymorphic_polymorph (safe : Nat) (heap : Heap) (self other : RValue) :
    Heap × Except MuesError RValue :=
  if 1 ≤ safe ∧ rValueTainted heap self = true ∧ rValueTainted heap other = false then
    (heap, .error .crossTaintExchange)
  else if 1 ≤ safe ∧ rValueTainted heap self = false ∧ rValueTainted heap other = true then
    (heap, .error .crossTaintExchange)
  else if 1 ≤ safe ∧ 4 ≤ safe ∧
      (rValueTainted heap self = true ∨ rValueTainted heap other = true) then
    (heap, .error .taintedExchangeForbidden)
  else if rValueKindOfPolymorphic heap other = false then
    (heap, .error .notExchangeable)
  else if rValueImmediate self = true then
    (heap, .error .notBoxed)
  else if rValueImmediate other = true then
    (heap, .error .notBoxed)
  else
    (recSwap heap self other, .ok self)

/-- A two-object heap used for concrete checks: handle 0 holds a tainted
polymorphic record, every other handle an untainted polymorphic record. -/
def heapT : Heap :=
  fun h => if h = 0 then ⟨true, true, 0⟩ else ⟨false, true, 1⟩

/-- A two-object heap used for concrete checks: all records untainted and
polymorphic, handle 0 distinguishable from the rest by its payload. -/
def heapU : Heap :=
  fun h => if h = 0 then ⟨false, true, 0⟩ else ⟨false, true, 1⟩

end Mues

namespace Mues

theorem swapRecords_fst (ha hb : Nat) (heap : Heap) :
    swapRecords ha hb heap ha = heap hb := by
  simp [swapRecords]

theorem swapRecords_snd (ha hb : Nat) (heap : Heap) :
    swapRecords ha hb heap hb = heap ha := by
  by_cases h : hb = ha <;> simp [swapRecords, h]

theorem swapRecords_swapRecords (ha hb : Nat) (heap : Heap) :
    swapRecords ha hb (swapRecords ha hb heap) = heap := by
  funext x
  by_cases hxa : x = ha
  · rw [hxa, swapRecords_fst, swapRecords_snd]
  · by_cases hxb : x = hb
    · rw [hxb, swapRecords_snd, swapRecords_fst]
    · simp [swapRecords, hxa, hxb]

theorem swapRecords_self (ha : Nat) (heap : Heap) :
    swapRecords ha ha heap = heap := by
  funext x
  by_cases h : x = ha <;> simp [swapRecords, h]

/-- C3 (amended): at `$SAFE >= 1`, exchanging objects with differing taint
flags fails with `CrossTaintExchange` and leaves the heap unchanged; at
`$SAFE >= 4`, exchanging two objects that are *both* tainted fails with
`TaintedExchangeForbidden` and leaves the heap unchanged (when exactly one
is tainted at `$SAFE >= 4`, the `CrossTaintExchange` check fires first). -/
theorem polymorph_taint_errors (safe : Nat) (heap : Heap) (a b : RValue) :
    (1 ≤ safe → rValueTainted heap a ≠ rValueTainted heap b →
      mues_polymorphic_polymorph safe heap a b = (heap, .error .crossTaintExchange))
    ∧ (4 ≤ safe → rValueTainted heap a = true → rValueTainted heap b = true →
      mues_polymorphic_polymorph safe heap a b = (heap, .error .taintedExchangeForbidden)) := by
  constructor
  · intro h1 hne
    cases hta : rValueTainted heap a <;> cases htb : rValueTainted heap b
    · exact absurd (hta.trans htb.symm) hne
    · simp [mues_polymorphic_polymorph, hta, htb, h1]
    · simp [mues_polymorphic_polymorph, hta, htb, h1]
    · exact absurd (hta.trans htb.symm) hne
  · intro h4 hta htb
    have h1 : 1 ≤ safe := le_trans (by norm_num) h4
    simp [mues_polymorphic_polymorph, hta, htb, h1, h4]

/-- C3 counterexample: at `$SAFE = 4` with `a` tainted and `b` untainted
("either flag is set"), the code fails with `CrossTaintExchange`, not with
`TaintedExchangeForbidden` as the claim states. -/
theorem polymorph_forbidden_counterexample :
    rValueTainted heapT (.boxed 0) = true
    ∧ rValueTainted heapT (.boxed 1) = false
    ∧ (mues_polymorphic_polymorph 4 heapT (.boxed 0) (.boxed 1)).2
        = .error .crossTaintExchange
    ∧ MuesError.crossTaintExchange ≠ MuesError.taintedExchangeForbidden :=
  ⟨rfl, rfl, rfl, by decide⟩

theorem polymorph_taint_errors_witness :
    mues_polymorphic_polymorph 1 heapT (.boxed 0) (.boxed 1)
      = (heapT, .error .crossTaintExchange) :=
  (polymorph_taint_errors 1 heapT (.boxed 0) (.boxed 1)).1 (by decide) (by decide)

/-- C4 (amended): when the taint/security guards do not fire, exchange
fails with `NotExchangeable` whenever `b` is not a polymorphic object
(which includes every immediate `b`, since the kind-of check precedes the
boxedness checks), and fails with `NotBoxed` when `b` is a polymorphic
object but `a` is immediate; moreover in every failure of any kind no
mutation occurs: the returned heap is the input heap. -/
theorem polymorph_reject_errors (safe : Nat) (heap : Heap) (a b : RValue)
    (hsa : 1 ≤ safe → rValueTainted heap a = rValueTainted heap b)
    (hsb : 4 ≤ safe → rValueTainted heap a = false) :
    (rValueKindOfPolymorphic heap b = false →
      mues_polymorphic_polymorph safe heap a b = (heap, .error .notExchangeable))
    ∧ (rValueKindOfPolymorphic heap b = true → rValueImmediate a = true →
      mues_polymorphic_polymorph safe heap a b = (heap, .error .notBoxed))
    ∧ (∀ e, (mues_polymorphic_polymorph safe heap a b).2 = .error e →
      (mues_polymorphic_polymorph safe heap a b).1 = heap) := by
  have c1 : ¬(1 ≤ safe ∧ rValueTainted heap a = true ∧ rValueTainted heap b = false) := by
    rintro ⟨h1, h2, h3⟩
    rw [hsa h1] at h2
    exact Bool.noConfusion (h3.symm.trans h2)
  have c2 : ¬(1 ≤ safe ∧ rValueTainted heap a = false ∧ rValueTainted heap b = true) := by
    rintro ⟨h1, h2, h3⟩
    rw [hsa h1] at h2
    exact Bool.noConfusion (h2.symm.trans h3)
  have c3 : ¬(1 ≤ safe ∧ 4 ≤ safe ∧
      (rValueTainted heap a = true ∨ rValueTainted heap b = true)) := by
    rintro ⟨h1, h4, hor⟩
    have hta := hsb h4
    have htb : rValueTainted heap b = false := (hsa h1).symm.trans hta
    rcases hor with h | h
    · exact Bool.noConfusion (hta.symm.trans h)
    · exact Bool.noConfusion (htb.symm.trans h)
  refine ⟨?_, ?_, ?_⟩
  · intro hko
    simp [mues_polymorphic_polymorph, c1, c2, c3, hko]
  · intro hko him
    simp [mues_polymorphic_polymorph, c1, c2, c3, hko, him]
  · intro e he
    unfold mues_polymorphic_polymorph at he ⊢
    split_ifs at he ⊢ <;> simp_all

/-- C4 counterexample: with an immediate `b`, the code rejects with
`NotExchangeable` (the kind-of check at polymorphic.c:58 precedes the
`IMMEDIATE_P` checks), not with `NotBoxed` as the claim states. -/
theorem polymorph_immediate_counterexample :
    rValueImmediate (.immediate 3) = true
    ∧ (mues_polymorphic_polymorph 0 heapU (.boxed 0) (.immediate 3)).2
        = .error .notExchangeable
    ∧ MuesError.notExchangeable ≠ MuesError.notBoxed :=
  ⟨rfl, rfl, by decide⟩

theorem polymorph_reject_errors_witness :
    mues_polymorphic_polymorph 0 heapU (.boxed 0) (.immediate 3)
      = (heapU, .error .notExchangeable) :=
  (polymorph_reject_errors 0 heapU (.boxed 0) (.immediate 3)
    (by decide) (by decide)).1 (by decide)

/-- C10: self-exchange of a boxed polymorphic object whose taint flag
passes the security checks succeeds and leaves the heap (hence the
object's observable state) unchanged. -/
theorem polymorph_self_noop (safe : Nat) (heap : Heap) (ha : Nat)
    (hp : (heap ha).polymorphic = true)
    (ht : 4 ≤ safe → (heap ha).taint = false) :
    mues_polymorphic_polymorph safe heap (.boxed ha) (.boxed ha)
      = (heap, .ok (.boxed ha)) := by
  simp only [mues_polymorphic_polymorph, rValueTainted, rValueKindOfPolymorphic,
    rValueImmediate, recSwap]
  split_ifs with h1 h2 h3 h4 h5
  · exact Bool.noConfusion (h1.2.1.symm.trans h1.2.2)
  · exact Bool.noConfusion (h2.2.1.symm.trans h2.2.2)
  · rcases h3.2.2 with h | h <;> exact Bool.noConfusion ((ht h3.2.1).symm.trans h)
  · exact Bool.noConfusion (hp.symm.trans h4)
  · exact h5.elim
  · rw [swapRecords_self]

theorem polymorph_self_noop_witness :
    mues_polymorphic_polymorph 0 heapU (.boxed 0) (.boxed 0)
      = (heapU, .ok (.boxed 0)) :=
  polymorph_self_noop 0 heapU 0 (by decide) (by decide)

/-- C2: exchange is an involution: if `exchange(a, b)` on two boxed
values succeeds (producing heap `heap1`), then running `exchange(a, b)`
again from `heap1` succeeds and restores the original heap, hence the
original observable state through both handles. The receiver's record
must itself be polymorphic (as the claim's "exchange-capable" requires)
for the second run's kind-of check on `b` — which then holds `a`'s old
record — to pass. -/
theorem polymorph_involution (safe : Nat) (heap heap1 : Heap) (ha hb : Nat) (v : RValue)
    (hpa : (heap ha).polymorphic = true)
    (h1 : mues_polymorphic_polymorph safe heap (.boxed ha) (.boxed hb) = (heap1, .ok v)) :
    mues_polymorphic_polymorph safe heap1 (.boxed ha) (.boxed hb) = (heap, .ok v) := by
  simp only [mues_polymorphic_polymorph, rValueTainted, rValueKindOfPolymorphic,
    rValueImmediate, recSwap] at h1
  split_ifs at h1 with c1 c2 c3 c4 c5
  · exact Except.noConfusion (congrArg Prod.snd h1)
  · exact Except.noConfusion (congrArg Prod.snd h1)
  · exact Except.noConfusion (congrArg Prod.snd h1)
  · exact Except.noConfusion (congrArg Prod.snd h1)
  · exact c5.elim
  · injection h1 with hh hv
    injection hv with hv
    subst hh hv
    simp only [mues_polymorphic_polymorph, rValueTainted, rValueKindOfPolymorphic,
      rValueImmediate, recSwap, swapRecords_fst, swapRecords_snd]
    split_ifs with d1 d2 d3 d4
    · exact absurd ⟨d1.1, d1.2.2, d1.2.1⟩ c2
    · exact absurd ⟨d2.1, d2.2.2, d2.2.1⟩ c1
    · exact absurd ⟨d3.1, d3.2.1, d3.2.2.symm⟩ c3
    · exact Bool.noConfusion (hpa.symm.trans d4)
    · rw [swapRecords_swapRecords]

theorem polymorph_involution_witness :
    mues_polymorphic_polymorph 0 (swapRecords 0 1 heapU) (.boxed 0) (.boxed 1)
      = (heapU, .ok (.boxed 0)) :=
  polymorph_involution 0 heapU (swapRecords 0 1 heapU) 0 1 (.boxed 0) (by decide) rfl

end Mues

namespace Mues

/-!
Embedding of object.c: the abstract-contract machinery. A class is
modelled by the facts the C code consults: whether it includes
`MUES::AbstractClass` (`rb_mod_include_p`), whether it is the walk's
stopping class `MUES::Object`, its method table (`rb_define_method` /
`instance_method` lookup), and its `@virtualMethods` instance variable
(`none` when `rb_ivar_defined` is false). An ancestor chain is the list
of classes from the instance's class upward (`RCLASS(klass)->super`),
with `NULL` as the end of the list.
-/

/-- A method body: the stub installed by `mues_abstract`
(`mues_dummy_method`, registered with arity `-1`), or an ordinary method
with its arity. -/
inductive MethodBody where
  | dummy
  | method (arity : Int)
  deriving DecidableEq, Repr

/-- `UnboundMethod#arity`: the stub was registered with `rb_define_method(..., -1)`. -/
def arityOf : MethodBody → Int
  | .dummy => -1
  | .method a => a

/-- A Ruby class, reduced to the facts object.c consults. -/
structure Klass where
  includesAbstractClass : Bool
  isRoot : Bool
  methods : List (String × MethodBody)
  virtualMethods : Option (List (String × Int))
  deriving DecidableEq, Repr

/-- Method lookup in one class's own method table. -/
def lookupMethod (n : String) : List (String × MethodBody) → Option MethodBody
  | [] => none
  | (m, b) :: rest => if m = n then some b else lookupMethod n rest

/-- `instance_method` resolution: first definition found walking the
ancestor chain. -/
def resolveMethod (n : String) : List Klass → Option MethodBody
  | [] => none
  | k :: rest =>
      match lookupMethod n k.methods with
      | some b => some b
      | none => resolveMethod n rest

/-- `rb_define_method`: the new definition shadows earlier ones. -/
def rb_define_method (k : Klass) (n : String) (b : MethodBody) : Klass :=
  { k with methods := (n, b) :: k.methods }

/-- `mues_dummy_method` (object.c lines 36-45): unconditionally raises
`MUES::VirtualMethodError`. -/
def mues_dummy_method : Except MuesError Unit := .error .virtualMethodError

/-- Invoking a method body: the stub raises, an ordinary method returns. -/
def invokeBody : MethodBody → Except MuesError Unit
  | .dummy => mues_dummy_method
  | .method _ => .ok ()

/-- Invoking operation `n` on an instance whose ancestor chain is `chain`. -/
def callMethod (chain : List Klass) (n : String) : Except MuesError Unit :=
  match resolveMethod n chain with
  | none => .error .nameError
  | some b => invokeBody b

/-- The loop of `mues_abstract`: define the dummy stub for each symbol. -/
def defineStubs (k : Klass) (names : List String) : Klass :=
  names.foldl (fun k n => rb_define_method k n .dummy) k

/-- Shallow embedding of `mues_abstract` (object.c lines 57-83): raises
`ScriptError` unless the class includes `MUES::AbstractClass`, otherwise
installs a `mues_dummy_method` stub for each name. The class state is
returned next to the possible error, so "no stub installed on failure"
is expressible. -/
def mues_abstract (self : Klass) (names : List String) : Klass × Option MuesError :=
  if self.includesAbstractClass = false then
    (self, some .notAbstractDeclaring)
  else
    (defineStubs self names, none)

/-- `rb_hash_aset` on an association list. -/
def hashASet (tbl : List (String × Int)) (n : String) (a : Int) : List (String × Int) :=
  match tbl with
  | [] => [(n, a)]
  | (m, b) :: rest => if m = n then (m, a) :: rest else (m, b) :: hashASet rest n a

/-- Shallow embedding of `mues_abstract_arity` (object.c lines 98-132):
declares the single name abstract via `mues_abstract`, then records
`name => arity` in the class's `@virtualMethods` hash (created empty when
the ivar is not yet defined). -/
def mues_abstract_arity (self : Klass) (name : String) (arity : Int) :
    Klass × Option MuesError :=
  match mues_abstract self [name] with
  | (k, some e) => (k, some e)
  | (k, none) =>
      let tbl := k.virtualMethods.getD []
      ({ k with virtualMethods := some (hashASet tbl name arity) }, none)

/-- Shallow embedding of `mues_check_definition` (object.c lines 143-175):
fetch the method named by the spec tuple from the passed class via
`instance_method` (raising `NameError` when it is missing), take its
arity, normalize a negative arity `n` to `abs(n + 1)` — and then raise
`VirtualMethodError` ("Insufficient arity for overridden method")
unconditionally: the `rb_raise` at line 171 sits outside the
`if (targetArity > actualArity)` at line 169. The error carries the name
and the two arities the code computed. -/
def mues_check_definition (chain : List Klass) (name : String) (targetArity : Int) :
    Except MuesError Unit :=
  match resolveMethod name chain with
  | none => .error .nameError
  | some b =>
      let a0 := arityOf b
      let actualArity : Int := if a0 < 0 then ((a0 + 1).natAbs : Int) else a0
      .error (.insufficientArity name targetArity actualArity)

/-- `rb_iterate(rb_each, virtualMethods, mues_check_definition, klass)`:
check each recorded `{name, arity}` pair against `chain` (the chain
headed by the visited class), propagating the first raise. -/
def checkEntries (chain : List Klass) : List (String × Int) → Except MuesError Unit
  | [] => .ok ()
  | (n, t) :: rest =>
      mues_check_definition chain n t >>= fun _ => checkEntries chain rest

/-- Shallow embedding of `mues_check_virtual_methods` (object.c lines
185-216): walk the chain from the instance's class while the class is
non-`NULL` and is not `MUES::Object`; at each class whose
`@virtualMethods` ivar is defined (and is a hash), check every entry —
passing the *visited* class as the resolution root — then continue with
the superclass. -/
def mues_check_virtual_methods : List Klass → Except MuesError Unit
  | [] => .ok ()
  | k :: rest =>
      if k.isRoot then .ok ()
      else
        match k.virtualMethods with
        | some tbl =>
            checkEntries (k :: rest) tbl >>= fun _ => mues_check_virtual_methods rest
        | none => mues_check_virtual_methods rest

/-- A concrete class that overrides `foo` with arity 2 and `bar` with
the variable-arity encoding `-3` ("at least 2 arguments"). -/
def klassOverride : Klass :=
  { includesAbstractClass := false, isRoot := false,
    methods := [("foo", .method 2), ("bar", .method (-3))],
    virtualMethods := none }

/-- C1 (code bug): `mues_check_definition` raises unconditionally. With a
requirement of minimum arity 1 and a resolved method of fixed arity 2
(which satisfies 1 <= 2, so the claim demands success), the code still
fails with the insufficient-arity `VirtualMethodError`; likewise for a
resolved variable arity `-3`, correctly normalized to `abs(-3+1) = 2`. -/
theorem check_definition_unconditional_raise :
    mues_check_definition [klassOverride] "foo" 1
      = .error (.insufficientArity "foo" 1 2)
    ∧ mues_check_definition [klassOverride] "bar" 1
      = .error (.insufficientArity "bar" 1 2) :=
  ⟨rfl, rfl⟩

/-- C5: declaring abstract methods on a class that does not include
`MUES::AbstractClass` fails with the not-abstract-declaring error and
installs no stub: the returned class is the input class, its method
table unchanged. -/
theorem abstract_concrete_rejected (k : Klass) (names : List String)
    (h : k.includesAbstractClass = false) :
    mues_abstract k names = (k, some .notAbstractDeclaring)
    ∧ (mues_abstract k names).1.methods = k.methods := by
  simp [mues_abstract, h]

/-- A concrete (non-abstract-declaring) class. -/
def klassConcrete : Klass :=
  { includesAbstractClass := false, isRoot := false, methods := [],
    virtualMethods := none }

theorem abstract_concrete_rejected_witness :
    mues_abstract klassConcrete ["foo"] = (klassConcrete, some .notAbstractDeclaring) :=
  (abstract_concrete_rejected klassConcrete ["foo"] (by decide)).1

theorem lookup_define (k : Klass) (m n : String) (b : MethodBody) :
    lookupMethod n (rb_define_method k m b).methods
      = if m = n then some b else lookupMethod n k.methods := rfl

theorem lookup_defineStubs_not_mem (names : List String) (k : Klass) (n : String)
    (h : n ∉ names) :
    lookupMethod n (defineStubs k names).methods = lookupMethod n k.methods := by
  induction names generalizing k with
  | nil => rfl
  | cons m rest ih =>
      have hmn : m ≠ n := fun e => h (e ▸ List.mem_cons_self m rest)
      have hrest : n ∉ rest := fun e => h (List.mem_cons_of_mem m e)
      show lookupMethod n (defineStubs (rb_define_method k m .dummy) rest).methods = _
      rw [ih _ hrest, lookup_define, if_neg hmn]

theorem lookup_defineStubs_mem (names : List String) (k : Klass) (n : String)
    (h : n ∈ names) :
    lookupMethod n (defineStubs k names).methods = some .dummy := by
  induction names generalizing k with
  | nil => cases h
  | cons m rest ih =>
      by_cases hr : n ∈ rest
      · exact ih (rb_define_method k m .dummy) hr
      · have hmn : m = n := by
          rcases List.mem_cons.mp h with h' | h'
          · exact h'.symm
          · exact absurd h' hr
        show lookupMethod n (defineStubs (rb_define_method k m .dummy) rest).methods = _
        rw [lookup_defineStubs_not_mem _ _ _ hr, lookup_define, if_pos hmn]

theorem resolve_append_none (pre chain : List Klass) (n : String)
    (h : ∀ k ∈ pre, lookupMethod n k.methods = none) :
    resolveMethod n (pre ++ chain) = resolveMethod n chain := by
  induction pre with
  | nil => rfl
  | cons k rest ih =>
      have hk := h k (List.mem_cons_self k rest)
      simp only [List.cons_append, resolveMethod, hk]
      exact ih fun k' hk' => h k' (List.mem_cons_of_mem _ hk')

/-- C6: on an abstract-declaring class, `mues_abstract` installs the
dummy stub for each declared name, and on any subtype whose intervening
classes never override the name, the operation resolves to the stub and
invoking it fails with `VirtualMethodError` — never silently succeeds. -/
theorem abstract_stub_raises (T : Klass) (names : List String) (n : String)
    (pre rest : List Klass)
    (hT : T.includesAbstractClass = true)
    (hn : n ∈ names)
    (hpre : ∀ k ∈ pre, lookupMethod n k.methods = none) :
    resolveMethod n (pre ++ (mues_abstract T names).1 :: rest) = some .dummy
    ∧ callMethod (pre ++ (mues_abstract T names).1 :: rest) n
        = .error .virtualMethodError := by
  have h1 : (mues_abstract T names).1 = defineStubs T names := by
    simp [mues_abstract, hT]
  have h2 : resolveMethod n (pre ++ (mues_abstract T names).1 :: rest) = some .dummy := by
    rw [resolve_append_none pre _ n hpre, h1]
    simp only [resolveMethod, lookup_defineStubs_mem names T n hn]
  exact ⟨h2, by simp [callMethod, h2, invokeBody, mues_dummy_method]⟩

/-- An abstract-declaring base class with no methods yet. -/
def klassAbstractBase : Klass :=
  { includesAbstractClass := true, isRoot := false, methods := [],
    virtualMethods := none }

theorem abstract_stub_raises_witness :
    callMethod [(mues_abstract klassAbstractBase ["foo"]).1] "foo"
      = .error .virtualMethodError :=
  (abstract_stub_raises klassAbstractBase ["foo"] "foo" [] [] (by decide) (by decide)
    (by intro k hk; simp at hk)).2

/-- The abstract base after `abstract_arity :foo, 2`: a dummy stub for
`foo` and a `@virtualMethods` entry `foo => 2`. -/
def klassA : Klass := (mues_abstract_arity klassAbstractBase "foo" 2).1

/-- A concrete subtype of `klassA` overriding `foo` with arity 2,
which satisfies the declared minimum arity. -/
def klassB : Klass :=
  { includesAbstractClass := false, isRoot := false,
    methods := [("foo", .method 2)], virtualMethods := none }

/-- The walk's stopping class, `MUES::Object`. -/
def klassRoot : Klass :=
  { includesAbstractClass := false, isRoot := true, methods := [],
    virtualMethods := none }

/-- C7 (code bug): for an instance of `klassB` (chain
`[klassB, klassA, klassRoot]`), the operation `foo` as resolved on the
instance's type is the arity-2 override, so the claim demands that
verification check that method and succeed; but
`mues_check_virtual_methods` passes the *visited ancestor* `klassA` to
`mues_check_definition`, which therefore resolves `foo` to the stub
(arity -1, normalized 0) and — raising unconditionally — fails with the
insufficient-arity error carrying actual arity 0, without ever visiting
the rest of the walk. -/
theorem check_virtual_methods_resolves_on_ancestor :
    resolveMethod "foo" [klassB, klassA, klassRoot] = some (.method 2)
    ∧ mues_check_virtual_methods [klassB, klassA, klassRoot]
        = .error (.insufficientArity "foo" 2 0) :=
  ⟨rfl, rfl⟩

end Mues

namespace Mues

/-!
Embedding of blank.c. The `mues_BLANK` struct stores the capability mask
in a C `double`; `capability=` assigns it from `FIX2LONG(newval)` (a
`long`) and `capability` reads it back through `LONG2NUM` (a `long`).
The `long` → `double` conversion is modelled exactly for a 64-bit
`long`: a binary64 double has a 53-bit significand, so the stored value
is the input rounded to the nearest multiple of `2 ^ (bits - 53)`
(ties to even), which is the identity for magnitudes up to `2 ^ 53`.
All values a `long` can hold round to integral doubles well inside the
binary64 range, so the stored value is kept as an `Int`.
-/

/-- Bit length of a natural number, with structural fuel (64 suffices
for any value of a 64-bit `long`). -/
def bitLen : Nat → Nat → Nat
  | 0, _ => 0
  | fuel + 1, m => if m = 0 then 0 else bitLen fuel (m / 2) + 1

/-- The distance between consecutive binary64 doubles at magnitude `m`
(as an exponent): 0 while `m` fits in the 53-bit significand. -/
def ulpExp (m : Nat) : Nat := bitLen 64 m - 53

/-- Round `m` to the nearest multiple of `2 ^ e`, ties to even
(IEEE 754 round-to-nearest-even). -/
def roundHalfEven (m e : Nat) : Nat :=
  let q := m / 2 ^ e
  let r := m % 2 ^ e
  if 2 * r < 2 ^ e then q * 2 ^ e
  else if 2 ^ e < 2 * r then (q + 1) * 2 ^ e
  else if q % 2 = 0 then q * 2 ^ e else (q + 1) * 2 ^ e

/-- The value of the binary64 double nearest to the integer `v`: the C
`long` → `double` conversion. -/
def longToDouble (v : Int) : Int :=
  v.sign * (roundHalfEven v.natAbs (ulpExp v.natAbs) : Nat)

/-- The `mues_BLANK` struct (blank.c lines 40-42): the `double
capability` field, holding the (always integral) stored value. -/
structure mues_BLANK where
  capability : Int
  deriving DecidableEq, Repr

/-- `mues_blank_alloc` (blank.c lines 45-51): mask initialized to 0. -/
def mues_blank_alloc : mues_BLANK := { capability := 0 }

/-- `mues_blank_capability` (blank.c lines 158-164): returns the mask
read back as a `long`; the stored double is integral, so the read is
its value. -/
def mues_blank_capability (ptr : mues_BLANK) : Int := ptr.capability

/-- Shallow embedding of `mues_blank_capability_eq` (blank.c lines
172-182): `rb_secure(3)` raises `SecurityError` when `$SAFE >= 3`;
otherwise the `long` value is stored into the `double` field and the
field's value is returned. The struct state is returned next to the
result so "unchanged on failure" is expressible. -/
def mues_blank_capability_eq (safe : Nat) (ptr : mues_BLANK) (newval : Int) :
    mues_BLANK × Except MuesError Int :=
  if 3 ≤ safe then (ptr, .error .insufficientPrivilege)
  else
    let stored := longToDouble newval
    ({ capability := stored }, .ok stored)

theorem bitLen_le (fuel : Nat) : ∀ m k : Nat, m < 2 ^ k → bitLen fuel m ≤ k := by
  induction fuel with
  | zero => intro m k _; exact Nat.zero_le k
  | succ fuel ih =>
      intro m k hm
      by_cases hm0 : m = 0
      · simp [bitLen, hm0]
      · cases k with
        | zero => exact absurd (Nat.lt_one_iff.mp hm) hm0
        | succ j =>
            have hdiv : m / 2 < 2 ^ j := by
              rw [Nat.div_lt_iff_lt_mul (by norm_num)]
              rw [pow_succ] at hm
              exact hm
            simp only [bitLen, if_neg hm0]
            exact Nat.succ_le_succ (ih (m / 2) j hdiv)

theorem roundHalfEven_zero (m : Nat) : roundHalfEven m 0 = m := by
  simp [roundHalfEven, Nat.mod_one, Nat.div_one]

/-- Integers of magnitude at most `2 ^ 53` convert to a `double` exactly. -/
theorem longToDouble_exact (v : Int) (h : v.natAbs ≤ 2 ^ 53) : longToDouble v = v := by
  have key : roundHalfEven v.natAbs (ulpExp v.natAbs) = v.natAbs := by
    rcases Nat.lt_or_ge v.natAbs (2 ^ 53) with hlt | hge
    · have hb : bitLen 64 v.natAbs ≤ 53 := bitLen_le 64 _ 53 hlt
      have he : ulpExp v.natAbs = 0 := Nat.sub_eq_zero_of_le hb
      rw [he, roundHalfEven_zero]
    · have heq : v.natAbs = 2 ^ 53 := le_antisymm h hge
      rw [heq]
      decide
  rw [longToDouble, key]
  exact Int.sign_mul_natAbs v

/-- C9: the capability round-trip through the `double` field is the
identity for every integer of magnitude at most `2 ^ 53`, but the 64-bit
`long` value `2 ^ 53 + 1` reads back as a different value (it rounds to
`2 ^ 53` in the `long` → `double` conversion). -/
theorem capability_double_roundtrip :
    (∀ v : Int, v.natAbs ≤ 2 ^ 53 →
      mues_blank_capability (mues_blank_capability_eq 0 mues_blank_alloc v).1 = v)
    ∧ ((2 : Int) ^ 53 + 1).natAbs < 2 ^ 63
    ∧ mues_blank_capability
        (mues_blank_capability_eq 0 mues_blank_alloc ((2 : Int) ^ 53 + 1)).1
        ≠ (2 : Int) ^ 53 + 1 := by
  refine ⟨?_, by decide, by decide⟩
  intro v hv
  simp [mues_blank_capability, mues_blank_capability_eq, longToDouble_exact v hv]

theorem capability_double_roundtrip_witness :
    mues_blank_capability (mues_blank_capability_eq 0 mues_blank_alloc 5).1 = 5 :=
  capability_double_roundtrip.1 5 (by decide)

/-- C8 counterexample: `setCapability(2 ^ 53 + 1)` at privilege level 0
succeeds, but the subsequent `capability()` returns `2 ^ 53`, not the
value that was set — refuting "for every value v ... a subsequent
capability() returns v". -/
theorem capability_set_get_counterexample :
    mues_blank_capability
      (mues_blank_capability_eq 0 mues_blank_alloc ((2 : Int) ^ 53 + 1)).1
      = (2 : Int) ^ 53
    ∧ (2 : Int) ^ 53 ≠ (2 : Int) ^ 53 + 1 :=
  ⟨by decide, by decide⟩

/-- C8 (amended): a fresh `mues_BLANK` has mask 0; for every value of
magnitude at most `2 ^ 53` (exactly representable in the `double`
field), `capability=` below `$SAFE = 3` succeeds and a subsequent
`capability` returns the value; at `$SAFE >= 3` it fails with the
insufficient-privilege `SecurityError` and the mask observed by
`capability` is unchanged. -/
theorem capability_mask_contract :
    mues_blank_alloc.capability = 0
    ∧ (∀ safe : Nat, ∀ ptr : mues_BLANK, ∀ v : Int, safe < 3 → v.natAbs ≤ 2 ^ 53 →
        mues_blank_capability_eq safe ptr v = ({ capability := v }, .ok v)
        ∧ mues_blank_capability (mues_blank_capability_eq safe ptr v).1 = v)
    ∧ (∀ safe : Nat, ∀ ptr : mues_BLANK, ∀ v : Int, 3 ≤ safe →
        mues_blank_capability_eq safe ptr v = (ptr, .error .insufficientPrivilege)
        ∧ mues_blank_capability (mues_blank_capability_eq safe ptr v).1
            = mues_blank_capability ptr) := by
  refine ⟨rfl, ?_, ?_⟩
  · intro safe ptr v hsafe hv
    have h3 : ¬ 3 ≤ safe := Nat.not_le.mpr hsafe
    constructor
    · simp [mues_blank_capability_eq, h3, longToDouble_exact v hv]
    · simp [mues_blank_capability, mues_blank_capability_eq, h3, longToDouble_exact v hv]
  · intro safe ptr v h3
    constructor
    · simp [mues_blank_capability_eq, h3]
    · simp [mues_blank_capability, mues_blank_capability_eq, h3]

theorem capability_mask_contract_witness :
    mues_blank_capability_eq 0 mues_blank_alloc 5 = ({ capability := 5 }, .ok 5)
    ∧ mues_blank_capability_eq 3 mues_blank_alloc 5
        = (mues_blank_alloc, .error .insufficientPrivilege) :=
  ⟨(capability_mask_contract.2.1 0 mues_blank_alloc 5 (by decide) (by decide)).1,
   (capability_mask_contract.2.2 3 mues_blank_alloc 5 (by decide)).1⟩

end Mues
